import Mathlib

/-!
Shallow embedding of the presence and social-graph engine of
`where-the-hbll-are-you` — the `users`-collection data model and the
operations of `src/unnamed/part_001` (the current revision of
`src/src/App.jsx`; `src/unnamed/part_000` only configures the store).

The Firestore `users` collection is modelled as a list of
`(uid, document)` pairs in enumeration order, Firestore timestamps as
milliseconds-since-epoch naturals, and the array operators
`arrayUnion` / `arrayRemove` with their documented set semantics.
-/

namespace Hbll

/-- A document of the `users` collection, with the fields written by the
new-user setup, `toggleStatus` and the friend-graph operations.
`lastCheckIn` is `none` when the field is null or absent; `displayName`
and `photoURL` are `none` when nullish. -/
structure UserDoc where
  email : String
  displayName : Option String
  photoURL : Option String
  isInLibrary : Bool
  lastCheckIn : Option Nat
  statusNote : Option String
  friends : List String
  requests : List String
deriving Repr, DecidableEq

/-- The `users` collection: documents keyed by uid, in enumeration order. -/
abbrev Store := List (String × UserDoc)

/-- Firestore `arrayUnion(v)`: appends `v` unless it is already present
(set semantics: adding a present value is a no-op). -/
def arrayUnion (xs : List String) (v : String) : List String :=
  if v ∈ xs then xs else xs ++ [v]

/-- Firestore `arrayRemove(v)`: removes every occurrence of `v`. -/
def arrayRemove (xs : List String) (v : String) : List String :=
  xs.filter (fun x => x ≠ v)

/-- `getDoc(doc(db, 'users', uid))`. -/
def getDocById (st : Store) (uid : String) : Option UserDoc :=
  (st.find? (fun p => p.1 = uid)).map (fun p => p.2)

/-- `getDocs(query(collection(db, 'users'), where('email', '==', e)))`:
the documents whose `email` field equals `e`, in enumeration order. -/
def queryEquals (st : Store) (e : String) : Store :=
  st.filter (fun p => p.2.email = e)

/-- The first document of the equality query (`snap.docs[0]`). -/
def firstByEmail (st : Store) (e : String) : Option (String × UserDoc) :=
  (queryEquals st e).head?

/-- `updateDoc(doc(db, 'users', uid), ...)`: apply the field update `f`
to the document keyed by `uid`, leaving all other documents unchanged. -/
def updateDocById (st : Store) (uid : String) (f : UserDoc → UserDoc) : Store :=
  st.map (fun p => if p.1 = uid then (p.1, f p.2) else p)

/-- `date-fns` `differenceInHours` between two millisecond instants,
truncated toward zero. On `Nat`, a check-in in the future truncates to
`0`, taking the same branch as the negative value does in the source. -/
def differenceInHours (now t : Nat) : Nat := (now - t) / 3600000

/-- The existing-user branch of the `onAuthStateChanged` callback
(`part_001` lines 41–53): on load, if `isInLibrary` is truthy and
`lastCheckIn` is present and at least 4 hours old, write
`{isInLibrary:false, lastCheckIn:null}` back and expose `false`;
otherwise write nothing and expose the stored flag. The first component
is the corrective write (if issued), the second the exposed initial
local presence state. -/
def checkStaleStatus (now : Nat) (d : UserDoc) : Option UserDoc × Bool :=
  match d.isInLibrary, d.lastCheckIn with
  | true, some t =>
    if 4 ≤ differenceInHours now t then
      (some { d with isInLibrary := false, lastCheckIn := none }, false)
    else (none, true)
  | status, _ => (none, status)

/-- `isOnline` (`part_001` lines 156–159): a roster record is shown
present iff `isInLibrary` is truthy, `lastCheckIn` is present, and fewer
than 4 truncated hours have elapsed since it. -/
def isOnline (now : Nat) (f : UserDoc) : Bool :=
  match f.isInLibrary, f.lastCheckIn with
  | true, some t => decide (differenceInHours now t < 4)
  | _, _ => false

/-- The cap of the friends-data listener (`part_001` line 86):
`friendEmails.slice(0, 30)`. -/
def cappedEmails (friendEmails : List String) : List String :=
  friendEmails.take 30

/-- The friends-data listener (`part_001` lines 76–95): with an empty
friend-email set the roster is wiped; otherwise the roster is fed by a
membership query (`where('email', 'in', cappedEmails)`) over the first
30 friend emails. -/
def friendsRoster (st : Store) (friendEmails : List String) : List UserDoc :=
  if friendEmails.isEmpty then []
  else (st.filter (fun p => p.2.email ∈ cappedEmails friendEmails)).map (fun p => p.2)

/-- Outcome of one `sendFriendRequest` invocation, one constructor per
exit path of the source. -/
inductive SendResult where
  | emptyInput
  | invalidTarget
  | notFound
  | alreadyFriends
  | sent
deriving Repr, DecidableEq

/-- `sendFriendRequest` after input normalization (`part_001` lines
116–133): reject if the target email is the sender's own; look the
target up by equality query and reject if there is no match; reject if
the target's `friends` already contains the sender's email; otherwise
`arrayUnion` the sender's email onto the target's `requests`. -/
def sendFriendRequestWith (st : Store) (userEmail cleanEmail : String) :
    SendResult × Store :=
  if cleanEmail = userEmail then (SendResult.invalidTarget, st)
  else
    match firstByEmail st cleanEmail with
    | none => (SendResult.notFound, st)
    | some (targetUid, targetDoc) =>
      if userEmail ∈ targetDoc.friends then (SendResult.alreadyFriends, st)
      else
        (SendResult.sent,
          updateDocById st targetUid
            (fun d => { d with requests := arrayUnion d.requests userEmail }))

/-- `sendFriendRequest` (`part_001` lines 113–137): empty-input guard,
`trim().toLowerCase()` normalization, then the checks above. -/
def sendFriendRequest (st : Store) (userEmail friendEmail : String) :
    SendResult × Store :=
  if friendEmail = "" then (SendResult.emptyInput, st)
  else sendFriendRequestWith st userEmail friendEmail.trim.toLower

/-- `acceptRequest` (`part_001` lines 139–154): add the requester's email
to the self document's `friends` and remove it from `requests`, then
locate the requester by equality query on email and, if found, add the
self email to the requester's `friends`. -/
def acceptRequest (st : Store) (selfUid userEmail requesterEmail : String) : Store :=
  let st1 := updateDocById st selfUid (fun d =>
    { d with friends := arrayUnion d.friends requesterEmail,
             requests := arrayRemove d.requests requesterEmail })
  match firstByEmail st1 requesterEmail with
  | none => st1
  | some (uid, _) =>
      updateDocById st1 uid (fun d => { d with friends := arrayUnion d.friends userEmail })

/-- `finalRemove` (`part_001` lines 162–188): remove the peer email from
the self document's `friends`, then locate the peer by equality query on
email and, if found, remove the self email from the peer's `friends`. -/
def finalRemove (st : Store) (selfUid userEmail friendEmailToRemove : String) : Store :=
  let st1 := updateDocById st selfUid (fun d =>
    { d with friends := arrayRemove d.friends friendEmailToRemove })
  match firstByEmail st1 friendEmailToRemove with
  | none => st1
  | some (uid, _) =>
      updateDocById st1 uid (fun d => { d with friends := arrayRemove d.friends userEmail })

/-- An entry of the emitted suggestion list. -/
structure Suggestion where
  email : String
  name : String
  photoURL : String
  mutuals : Nat
deriving Repr, DecidableEq

/-- `otherUser.displayName?.split(' ')[0] || otherUserEmail`: the first
space-separated token of the display name, falling back to the email
when the name is nullish or its first token is empty. -/
def suggestionName (d : UserDoc) : String :=
  let first :=
    match d.displayName with
    | some n => (n.splitOn " ").headD ""
    | none => ""
  if first = "" then d.email else first

/-- `otherUser.photoURL || 'https://via.placeholder.com/40'`. -/
def suggestionPhoto (d : UserDoc) : String :=
  match d.photoURL with
  | some p => if p = "" then "https://via.placeholder.com/40" else p
  | none => "https://via.placeholder.com/40"

/-- One candidate's suggestion entry (`part_001` lines 218–237): the
mutual count walks the candidate's `friends` and counts the entries
present in the caller's `friendEmails`. -/
def candidateEntry (friendEmails : List String) (d : UserDoc) : Suggestion :=
  { email := d.email
    name := suggestionName d
    photoURL := suggestionPhoto d
    mutuals := (d.friends.filter (fun e => e ∈ friendEmails)).length }

/-- The enumeration loop of `calculateSuggested` (`part_001` lines
202–241): skip the caller, current friends and pending requesters; keep
candidates with a positive mutual count; sort descending by mutuals. -/
def computeSuggestions (userEmail : String) (friendEmails requests : List String)
    (docs : List UserDoc) : List Suggestion :=
  (docs.filterMap (fun d =>
    if d.email = userEmail ∨ d.email ∈ friendEmails ∨ d.email ∈ requests then none
    else
      let s := candidateEntry friendEmails d
      if 0 < s.mutuals then some s else none)).mergeSort
    (fun a b => decide (b.mutuals ≤ a.mutuals))

/-- `calculateSuggested` (`part_001` lines 191–245) for a signed-in user:
with an empty friend-email set it publishes the empty list and stops
before reading the collection; otherwise it enumerates all user
documents. The 800 ms stabilization delay is timing-only and not
modelled. -/
def calculateSuggested (userEmail : String) (friendEmails requests : List String)
    (docs : List UserDoc) : List Suggestion :=
  if friendEmails.isEmpty then []
  else computeSuggestions userEmail friendEmails requests docs

/-- Sample documents and store for concrete instantiations: Alice and Bob
are friends, Carol and Bob are friends, and Dave has a pending request to
Carol. -/
def docAlice : UserDoc :=
  { email := "alice@x", displayName := none, photoURL := none, isInLibrary := true,
    lastCheckIn := some 0, statusNote := none, friends := ["bob@x"], requests := [] }

def docBob : UserDoc :=
  { email := "bob@x", displayName := none, photoURL := none, isInLibrary := false,
    lastCheckIn := none, statusNote := none, friends := ["alice@x", "carol@x"],
    requests := [] }

def docCarol : UserDoc :=
  { email := "carol@x", displayName := none, photoURL := none, isInLibrary := false,
    lastCheckIn := none, statusNote := none, friends := ["bob@x"],
    requests := ["dave@x"] }

def docDave : UserDoc :=
  { email := "dave@x", displayName := none, photoURL := none, isInLibrary := false,
    lastCheckIn := none, statusNote := none, friends := [], requests := [] }

def sampleStore : Store :=
  [("u1", docAlice), ("u2", docBob), ("u3", docCarol), ("u4", docDave)]

/-- The suggestion entry that `calculateSuggested` produces for Alice as
seen by Carol in `sampleStore`. -/
def sugAlice : Suggestion :=
  { email := "alice@x", name := "alice@x",
    photoURL := "https://via.placeholder.com/40", mutuals := 1 }

/-- C2: at session establishment, an existing record with
`isInLibrary = true` and a `lastCheckIn` at least 4 hours old receives the
corrective write `{isInLibrary:false, lastCheckIn:null}` and the exposed
initial local presence state is `false`. -/
theorem checkStaleStatus_corrects_stale (now t : Nat) (d : UserDoc)
    (hlib : d.isInLibrary = true) (hts : d.lastCheckIn = some t)
    (helapsed : t + 4 * 3600000 ≤ now) :
    checkStaleStatus now d =
      (some { d with isInLibrary := false, lastCheckIn := none }, false) := by
  have h4 : 4 ≤ differenceInHours now t := by
    unfold differenceInHours; omega
  unfold checkStaleStatus
  simp [hlib, hts, h4]

theorem checkStaleStatus_corrects_stale_witness :
    docAlice.isInLibrary = true ∧ docAlice.lastCheckIn = some 0 ∧
      0 + 4 * 3600000 ≤ 14400000 ∧
      checkStaleStatus 14400000 docAlice =
        (some { docAlice with isInLibrary := false, lastCheckIn := none }, false) :=
  ⟨by decide, by decide, by decide,
    checkStaleStatus_corrects_stale 14400000 0 docAlice (by decide) (by decide) (by decide)⟩

/-- C10: at session establishment, an existing record with
`isInLibrary = true` but no `lastCheckIn` skips the staleness correction:
no corrective write is issued and `true` is exposed as the initial local
presence state. -/
theorem checkStaleStatus_skips_missing_timestamp (now : Nat) (d : UserDoc)
    (hlib : d.isInLibrary = true) (hts : d.lastCheckIn = none) :
    checkStaleStatus now d = (none, true) := by
  unfold checkStaleStatus
  simp [hlib, hts]

theorem checkStaleStatus_skips_missing_timestamp_witness :
    ({ docAlice with lastCheckIn := none } : UserDoc).isInLibrary = true ∧
      checkStaleStatus 99 { docAlice with lastCheckIn := none } = (none, true) :=
  ⟨by decide,
    checkStaleStatus_skips_missing_timestamp 99 { docAlice with lastCheckIn := none }
      (by decide) (by decide)⟩

/-- C9: a roster record is displayed as present iff its `isInLibrary` flag
is true, its `lastCheckIn` is non-null, and fewer than 4 hours have
elapsed since the check-in; failing any of these it is shown away even if
the stored flag is still true. -/
theorem isOnline_iff (now : Nat) (f : UserDoc) :
    isOnline now f = true ↔
      f.isInLibrary = true ∧ ∃ t, f.lastCheckIn = some t ∧ now - t < 4 * 3600000 := by
  unfold isOnline
  rcases hb : f.isInLibrary <;> rcases ht : f.lastCheckIn with _ | t <;>
    simp [hb, ht, differenceInHours]
  omega

/-- C7: a suggestion recomputation triggered with an empty caller
friend-email set emits the empty suggestion list and stops without
enumerating the user collection: the result is `[]` for every store
contents `docs`. -/
theorem calculateSuggested_empty_friends (userEmail : String)
    (requests : List String) (docs : List UserDoc) :
    calculateSuggested userEmail [] requests docs = [] := by
  simp [calculateSuggested]

/-- C8: for a non-empty friend-email set the roster membership query runs
over at most 30 emails (`cappedEmails`, the first 30 friends); every
roster record's email is among those first 30, every stored document
whose email is among them is in the roster, and a friend beyond the cap
is absent from the roster. -/
theorem friendsRoster_cap (st : Store) (friendEmails : List String)
    (hne : friendEmails ≠ []) :
    (cappedEmails friendEmails).length ≤ 30 ∧
    (∀ d ∈ friendsRoster st friendEmails, d.email ∈ cappedEmails friendEmails) ∧
    (∀ p ∈ st, p.2.email ∈ cappedEmails friendEmails →
      p.2 ∈ friendsRoster st friendEmails) ∧
    (∀ e ∈ friendEmails, e ∉ cappedEmails friendEmails →
      ∀ d ∈ friendsRoster st friendEmails, d.email ≠ e) := by
  have hie : friendEmails.isEmpty = false := List.isEmpty_eq_false.mpr hne
  refine ⟨List.length_take_le 30 friendEmails, ?_, ?_, ?_⟩
  · intro d hd
    simp only [friendsRoster, hie, Bool.false_eq_true, if_false, List.mem_map,
      List.mem_filter] at hd
    rcases hd with ⟨p, ⟨_, hmem⟩, rfl⟩
    simpa using hmem
  · intro p hp hcap
    simp only [friendsRoster, hie, Bool.false_eq_true, if_false, List.mem_map,
      List.mem_filter]
    exact ⟨p, ⟨hp, by simpa using hcap⟩, rfl⟩
  · intro e _ hnotcap d hd heq
    have : d.email ∈ cappedEmails friendEmails := by
      have h2 :
          ∀ d ∈ friendsRoster st friendEmails, d.email ∈ cappedEmails friendEmails := by
        intro d' hd'
        simp only [friendsRoster, hie, Bool.false_eq_true, if_false, List.mem_map,
          List.mem_filter] at hd'
        rcases hd' with ⟨p, ⟨_, hmem⟩, rfl⟩
        simpa using hmem
      exact h2 d hd
    exact hnotcap (heq ▸ this)

theorem friendsRoster_cap_witness :
    (["bob@x"] : List String) ≠ [] ∧
    ((cappedEmails ["bob@x"]).length ≤ 30 ∧
    (∀ d ∈ friendsRoster sampleStore ["bob@x"], d.email ∈ cappedEmails ["bob@x"]) ∧
    (∀ p ∈ sampleStore, p.2.email ∈ cappedEmails ["bob@x"] →
      p.2 ∈ friendsRoster sampleStore ["bob@x"]) ∧
    (∀ e ∈ ["bob@x"], e ∉ cappedEmails ["bob@x"] →
      ∀ d ∈ friendsRoster sampleStore ["bob@x"], d.email ≠ e)) :=
  ⟨by decide, friendsRoster_cap sampleStore ["bob@x"] (by decide)⟩

/-- `find?` by key commutes with the per-key update of `updateDocById`. -/
theorem find?_updateDocById (st : Store) (uid uidq : String) (f : UserDoc → UserDoc) :
    (updateDocById st uid f).find? (fun p => p.1 = uidq) =
      (st.find? (fun p => p.1 = uidq)).map
        (fun p => if p.1 = uid then (p.1, f p.2) else p) := by
  induction st with
  | nil => rfl
  | cons p st ih =>
    simp only [updateDocById, List.map_cons] at *
    by_cases hu : p.1 = uid
    · by_cases hq : p.1 = uidq
      · have huq : uid = uidq := hu.symm.trans hq
        simp [List.find?_cons, hu, hq, huq]
      · have huq : ¬uid = uidq := fun h => hq (hu.trans h)
        simp [List.find?_cons, hu, hq, huq, ih]
    · by_cases hq : p.1 = uidq
      · have hqu : ¬uidq = uid := fun h => hu (hq.trans h)
        simp [List.find?_cons, hu, hq, hqu]
      · simp [List.find?_cons, hu, hq, ih]

/-- Reading a document after `updateDocById`: the updated key reads the
updated document, every other key reads the old one. -/
theorem getDocById_updateDocById (st : Store) (uid uidq : String)
    (f : UserDoc → UserDoc) :
    getDocById (updateDocById st uid f) uidq =
      if uidq = uid then (getDocById st uidq).map f else getDocById st uidq := by
  unfold getDocById
  rw [find?_updateDocById]
  by_cases hq : uidq = uid
  · subst hq
    rcases h : st.find? (fun p => p.1 = uidq) with _ | p
    · simp [h]
    · have hp : p.1 = uidq := by simpa using List.find?_some h
      simp [h, hp]
  · rcases h : st.find? (fun p => p.1 = uidq) with _ | p
    · simp [h, hq]
    · have hp : p.1 = uidq := by simpa using List.find?_some h
      have hpu : ¬p.1 = uid := fun hh => hq (hp.symm.trans hh)
      simp [h, hq, hpu]

/-- An email-preserving `updateDocById` maps the equality query results
pointwise. -/
theorem queryEquals_updateDocById (st : Store) (uid : String) (f : UserDoc → UserDoc)
    (hf : ∀ d, (f d).email = d.email) (e : String) :
    queryEquals (updateDocById st uid f) e =
      (queryEquals st e).map (fun p => if p.1 = uid then (p.1, f p.2) else p) := by
  induction st with
  | nil => rfl
  | cons p st ih =>
    simp only [updateDocById, List.map_cons, queryEquals] at *
    by_cases hu : p.1 = uid <;> by_cases he : p.2.email = e <;>
      simp [List.filter_cons, hu, he, hf, ih, updateDocById]

/-- An email-preserving `updateDocById` maps the first query result. -/
theorem firstByEmail_updateDocById (st : Store) (uid : String) (f : UserDoc → UserDoc)
    (hf : ∀ d, (f d).email = d.email) (e : String) :
    firstByEmail (updateDocById st uid f) e =
      (firstByEmail st e).map (fun p => if p.1 = uid then (p.1, f p.2) else p) := by
  unfold firstByEmail
  rw [queryEquals_updateDocById st uid f hf e, List.head?_map]

theorem mem_arrayUnion_self (xs : List String) (v : String) : v ∈ arrayUnion xs v := by
  unfold arrayUnion
  by_cases h : v ∈ xs <;> simp [h]

theorem mem_arrayUnion_of_mem (xs : List String) (v : String) {w : String}
    (h : w ∈ xs) : w ∈ arrayUnion xs v := by
  unfold arrayUnion
  by_cases hv : v ∈ xs <;> simp [hv, h]

theorem not_mem_arrayRemove_self (xs : List String) (v : String) :
    v ∉ arrayRemove xs v := by
  simp [arrayRemove]

/-- Unfolding `acceptRequest` when the requester lookup (run on the store
after the first write) succeeds. -/
theorem acceptRequest_eq (st : Store) (selfUid userEmail requesterEmail : String)
    (bUid : String) (bDoc1 : UserDoc)
    (h : firstByEmail (updateDocById st selfUid (fun d =>
        { d with friends := arrayUnion d.friends requesterEmail,
                 requests := arrayRemove d.requests requesterEmail })) requesterEmail
      = some (bUid, bDoc1)) :
    acceptRequest st selfUid userEmail requesterEmail =
      updateDocById (updateDocById st selfUid (fun d =>
        { d with friends := arrayUnion d.friends requesterEmail,
                 requests := arrayRemove d.requests requesterEmail })) bUid
        (fun d => { d with friends := arrayUnion d.friends userEmail }) := by
  simp only [acceptRequest]
  rw [h]

/-- C1: for a self user with a document and a requester email that has a
document, after `acceptRequest` completes (both writes applied, no
partial failure), the requester's email is in the self document's
`friends`, no longer in its `requests`, and the self email is in the
requester document's `friends`. -/
theorem acceptRequest_symmetric (st : Store)
    (selfUid userEmail requesterEmail : String) (d0 : UserDoc)
    (bUid : String) (bDoc : UserDoc)
    (hself : getDocById st selfUid = some d0)
    (hreq : firstByEmail st requesterEmail = some (bUid, bDoc)) :
    (∃ a, getDocById (acceptRequest st selfUid userEmail requesterEmail) selfUid
        = some a ∧ requesterEmail ∈ a.friends ∧ requesterEmail ∉ a.requests) ∧
    (∃ q b, firstByEmail (acceptRequest st selfUid userEmail requesterEmail)
        requesterEmail = some (q, b) ∧ userEmail ∈ b.friends) := by
  have hf1 : ∀ d : UserDoc, ((fun d : UserDoc =>
      { d with friends := arrayUnion d.friends requesterEmail,
               requests := arrayRemove d.requests requesterEmail }) d).email = d.email :=
    fun _ => rfl
  have hf2 : ∀ d : UserDoc,
      ((fun d : UserDoc => { d with friends := arrayUnion d.friends userEmail }) d).email
        = d.email := fun _ => rfl
  have hq1 := firstByEmail_updateDocById st selfUid (fun d =>
      { d with friends := arrayUnion d.friends requesterEmail,
               requests := arrayRemove d.requests requesterEmail }) hf1 requesterEmail
  rw [hreq] at hq1
  by_cases hbu : bUid = selfUid
  · have hq1' : firstByEmail (updateDocById st selfUid (fun d =>
        { d with friends := arrayUnion d.friends requesterEmail,
                 requests := arrayRemove d.requests requesterEmail })) requesterEmail
        = some (selfUid,
            { bDoc with friends := arrayUnion bDoc.friends requesterEmail,
                        requests := arrayRemove bDoc.requests requesterEmail }) := by
      rw [hq1]; simp [hbu]
    rw [acceptRequest_eq st selfUid userEmail requesterEmail selfUid _ hq1']
    have hq2raw := firstByEmail_updateDocById (updateDocById st selfUid (fun d =>
        { d with friends := arrayUnion d.friends requesterEmail,
                 requests := arrayRemove d.requests requesterEmail })) selfUid
      (fun d => { d with friends := arrayUnion d.friends userEmail }) hf2 requesterEmail
    rw [hq1'] at hq2raw
    have hq2 : firstByEmail (updateDocById (updateDocById st selfUid (fun d =>
        { d with friends := arrayUnion d.friends requesterEmail,
                 requests := arrayRemove d.requests requesterEmail })) selfUid
        (fun d => { d with friends := arrayUnion d.friends userEmail })) requesterEmail
        = some (selfUid,
            { bDoc with
                friends := arrayUnion (arrayUnion bDoc.friends requesterEmail) userEmail,
                requests := arrayRemove bDoc.requests requesterEmail }) := by
      rw [hq2raw]; simp
    have hga : getDocById (updateDocById (updateDocById st selfUid (fun d =>
        { d with friends := arrayUnion d.friends requesterEmail,
                 requests := arrayRemove d.requests requesterEmail })) selfUid
        (fun d => { d with friends := arrayUnion d.friends userEmail })) selfUid =
        some { d0 with
          friends := arrayUnion (arrayUnion d0.friends requesterEmail) userEmail,
          requests := arrayRemove d0.requests requesterEmail } := by
      rw [getDocById_updateDocById, if_pos rfl, getDocById_updateDocById, if_pos rfl,
        hself]
      rfl
    constructor
    · exact ⟨_, hga,
        mem_arrayUnion_of_mem _ _ (mem_arrayUnion_self _ _),
        not_mem_arrayRemove_self _ _⟩
    · exact ⟨selfUid, _, hq2, mem_arrayUnion_self _ _⟩
  · have hq1' : firstByEmail (updateDocById st selfUid (fun d =>
        { d with friends := arrayUnion d.friends requesterEmail,
                 requests := arrayRemove d.requests requesterEmail })) requesterEmail
        = some (bUid, bDoc) := by
      rw [hq1]; simp [hbu]
    rw [acceptRequest_eq st selfUid userEmail requesterEmail bUid bDoc hq1']
    have hq2raw := firstByEmail_updateDocById (updateDocById st selfUid (fun d =>
        { d with friends := arrayUnion d.friends requesterEmail,
                 requests := arrayRemove d.requests requesterEmail })) bUid
      (fun d => { d with friends := arrayUnion d.friends userEmail }) hf2 requesterEmail
    rw [hq1'] at hq2raw
    have hq2 : firstByEmail (updateDocById (updateDocById st selfUid (fun d =>
        { d with friends := arrayUnion d.friends requesterEmail,
                 requests := arrayRemove d.requests requesterEmail })) bUid
        (fun d => { d with friends := arrayUnion d.friends userEmail })) requesterEmail
        = some (bUid,
            { bDoc with friends := arrayUnion bDoc.friends userEmail }) := by
      rw [hq2raw]; simp
    have hga : getDocById (updateDocById (updateDocById st selfUid (fun d =>
        { d with friends := arrayUnion d.friends requesterEmail,
                 requests := arrayRemove d.requests requesterEmail })) bUid
        (fun d => { d with friends := arrayUnion d.friends userEmail })) selfUid =
        some { d0 with
          friends := arrayUnion d0.friends requesterEmail,
          requests := arrayRemove d0.requests requesterEmail } := by
      rw [getDocById_updateDocById, if_neg (fun h => hbu h.symm),
        getDocById_updateDocById, if_pos rfl, hself]
      rfl
    constructor
    · exact ⟨_, hga, mem_arrayUnion_self _ _, not_mem_arrayRemove_self _ _⟩
    · exact ⟨bUid, _, hq2, mem_arrayUnion_self _ _⟩

theorem acceptRequest_symmetric_witness :
    getDocById sampleStore "u3" = some docCarol ∧
    firstByEmail sampleStore "dave@x" = some ("u4", docDave) ∧
    ((∃ a, getDocById (acceptRequest sampleStore "u3" "carol@x" "dave@x") "u3"
        = some a ∧ "dave@x" ∈ a.friends ∧ "dave@x" ∉ a.requests) ∧
    (∃ q b, firstByEmail (acceptRequest sampleStore "u3" "carol@x" "dave@x")
        "dave@x" = some (q, b) ∧ "carol@x" ∈ b.friends)) :=
  ⟨by decide, by decide,
    acceptRequest_symmetric sampleStore "u3" "carol@x" "dave@x" docCarol "u4" docDave
      (by decide) (by decide)⟩

theorem not_mem_arrayRemove_of_not_mem (xs : List String) (v : String) {w : String}
    (h : w ∉ xs) : w ∉ arrayRemove xs v := by
  simp only [arrayRemove, List.mem_filter]
  intro hc
  exact h hc.1

/-- Unfolding `finalRemove` when the peer lookup (run on the store after
the first write) succeeds. -/
theorem finalRemove_eq (st : Store) (selfUid userEmail friendEmailToRemove : String)
    (bUid : String) (bDoc1 : UserDoc)
    (h : firstByEmail (updateDocById st selfUid (fun d =>
        { d with friends := arrayRemove d.friends friendEmailToRemove }))
        friendEmailToRemove = some (bUid, bDoc1)) :
    finalRemove st selfUid userEmail friendEmailToRemove =
      updateDocById (updateDocById st selfUid (fun d =>
        { d with friends := arrayRemove d.friends friendEmailToRemove })) bUid
        (fun d => { d with friends := arrayRemove d.friends userEmail }) := by
  simp only [finalRemove]
  rw [h]

/-- C4: for a self user whose document lists the peer email as a friend
and a peer email that has a document, after `finalRemove` completes (both
writes applied, no partial failure), the peer email is not in the self
document's `friends` and the self email is not in the peer document's
`friends`. -/
theorem finalRemove_symmetric (st : Store)
    (selfUid userEmail peerEmail : String) (d0 : UserDoc)
    (bUid : String) (bDoc : UserDoc)
    (hself : getDocById st selfUid = some d0)
    (_hfriend : peerEmail ∈ d0.friends)
    (hpeer : firstByEmail st peerEmail = some (bUid, bDoc)) :
    (∃ a, getDocById (finalRemove st selfUid userEmail peerEmail) selfUid
        = some a ∧ peerEmail ∉ a.friends) ∧
    (∃ q b, firstByEmail (finalRemove st selfUid userEmail peerEmail) peerEmail
        = some (q, b) ∧ userEmail ∉ b.friends) := by
  have hf1 : ∀ d : UserDoc, ((fun d : UserDoc =>
      { d with friends := arrayRemove d.friends peerEmail }) d).email = d.email :=
    fun _ => rfl
  have hf2 : ∀ d : UserDoc,
      ((fun d : UserDoc => { d with friends := arrayRemove d.friends userEmail }) d).email
        = d.email := fun _ => rfl
  have hq1 := firstByEmail_updateDocById st selfUid (fun d =>
      { d with friends := arrayRemove d.friends peerEmail }) hf1 peerEmail
  rw [hpeer] at hq1
  by_cases hbu : bUid = selfUid
  · have hq1' : firstByEmail (updateDocById st selfUid (fun d =>
        { d with friends := arrayRemove d.friends peerEmail })) peerEmail
        = some (selfUid, { bDoc with friends := arrayRemove bDoc.friends peerEmail }) := by
      rw [hq1]; simp [hbu]
    rw [finalRemove_eq st selfUid userEmail peerEmail selfUid _ hq1']
    have hq2raw := firstByEmail_updateDocById (updateDocById st selfUid (fun d =>
        { d with friends := arrayRemove d.friends peerEmail })) selfUid
      (fun d => { d with friends := arrayRemove d.friends userEmail }) hf2 peerEmail
    rw [hq1'] at hq2raw
    have hq2 : firstByEmail (updateDocById (updateDocById st selfUid (fun d =>
        { d with friends := arrayRemove d.friends peerEmail })) selfUid
        (fun d => { d with friends := arrayRemove d.friends userEmail })) peerEmail
        = some (selfUid, { bDoc with
            friends := arrayRemove (arrayRemove bDoc.friends peerEmail) userEmail }) := by
      rw [hq2raw]; simp
    have hga : getDocById (updateDocById (updateDocById st selfUid (fun d =>
        { d with friends := arrayRemove d.friends peerEmail })) selfUid
        (fun d => { d with friends := arrayRemove d.friends userEmail })) selfUid =
        some { d0 with
          friends := arrayRemove (arrayRemove d0.friends peerEmail) userEmail } := by
      rw [getDocById_updateDocById, if_pos rfl, getDocById_updateDocById, if_pos rfl,
        hself]
      rfl
    constructor
    · exact ⟨_, hga,
        not_mem_arrayRemove_of_not_mem _ _ (not_mem_arrayRemove_self _ _)⟩
    · exact ⟨selfUid, _, hq2, not_mem_arrayRemove_self _ _⟩
  · have hq1' : firstByEmail (updateDocById st selfUid (fun d =>
        { d with friends := arrayRemove d.friends peerEmail })) peerEmail
        = some (bUid, bDoc) := by
      rw [hq1]; simp [hbu]
    rw [finalRemove_eq st selfUid userEmail peerEmail bUid bDoc hq1']
    have hq2raw := firstByEmail_updateDocById (updateDocById st selfUid (fun d =>
        { d with friends := arrayRemove d.friends peerEmail })) bUid
      (fun d => { d with friends := arrayRemove d.friends userEmail }) hf2 peerEmail
    rw [hq1'] at hq2raw
    have hq2 : firstByEmail (updateDocById (updateDocById st selfUid (fun d =>
        { d with friends := arrayRemove d.friends peerEmail })) bUid
        (fun d => { d with friends := arrayRemove d.friends userEmail })) peerEmail
        = some (bUid, { bDoc with friends := arrayRemove bDoc.friends userEmail }) := by
      rw [hq2raw]; simp
    have hga : getDocById (updateDocById (updateDocById st selfUid (fun d =>
        { d with friends := arrayRemove d.friends peerEmail })) bUid
        (fun d => { d with friends := arrayRemove d.friends userEmail })) selfUid =
        some { d0 with friends := arrayRemove d0.friends peerEmail } := by
      rw [getDocById_updateDocById, if_neg (fun h => hbu h.symm),
        getDocById_updateDocById, if_pos rfl, hself]
      rfl
    constructor
    · exact ⟨_, hga, not_mem_arrayRemove_self _ _⟩
    · exact ⟨bUid, _, hq2, not_mem_arrayRemove_self _ _⟩

theorem finalRemove_symmetric_witness :
    getDocById sampleStore "u1" = some docAlice ∧ "bob@x" ∈ docAlice.friends ∧
    firstByEmail sampleStore "bob@x" = some ("u2", docBob) ∧
    ((∃ a, getDocById (finalRemove sampleStore "u1" "alice@x" "bob@x") "u1"
        = some a ∧ "bob@x" ∉ a.friends) ∧
    (∃ q b, firstByEmail (finalRemove sampleStore "u1" "alice@x" "bob@x") "bob@x"
        = some (q, b) ∧ "alice@x" ∉ b.friends)) :=
  ⟨by decide, by decide, by decide,
    finalRemove_symmetric sampleStore "u1" "alice@x" "bob@x" docAlice "u2" docBob
      (by decide) (by decide) (by decide)⟩

/-- C3: `sendFriendRequest` (after normalization) rejects with the
self-target error exactly when the target email equals the sender's own;
failing that, rejects with the not-found error exactly when the equality
query is empty; failing that, rejects with the already-friends error
exactly when the first matched document's `friends` contains the sender's
email; and every rejection leaves the store untouched. -/
theorem sendFriendRequestWith_spec (st : Store) (userEmail cleanEmail : String) :
    ((sendFriendRequestWith st userEmail cleanEmail).1 = SendResult.invalidTarget ↔
      cleanEmail = userEmail) ∧
    ((sendFriendRequestWith st userEmail cleanEmail).1 = SendResult.notFound ↔
      cleanEmail ≠ userEmail ∧ queryEquals st cleanEmail = []) ∧
    ((sendFriendRequestWith st userEmail cleanEmail).1 = SendResult.alreadyFriends ↔
      cleanEmail ≠ userEmail ∧ ∃ uid d, firstByEmail st cleanEmail = some (uid, d) ∧
        userEmail ∈ d.friends) ∧
    ((sendFriendRequestWith st userEmail cleanEmail).1 ≠ SendResult.sent →
      (sendFriendRequestWith st userEmail cleanEmail).2 = st) := by
  by_cases he : cleanEmail = userEmail
  · simp [sendFriendRequestWith, he]
  · rcases hq : firstByEmail st cleanEmail with _ | p
    · have hqe : queryEquals st cleanEmail = [] := by
        simpa [firstByEmail, List.head?_eq_none_iff] using hq
      simp [sendFriendRequestWith, he, hq, hqe]
    · obtain ⟨uid, d⟩ := p
      have hqne : ¬queryEquals st cleanEmail = [] := by
        intro h0
        rw [firstByEmail, h0] at hq
        cases hq
      by_cases hfr : userEmail ∈ d.friends
      · simp [sendFriendRequestWith, he, hq, hfr, hqne]
        exact ⟨uid, d, ⟨rfl, rfl⟩, hfr⟩
      · simp [sendFriendRequestWith, he, hq, hfr, hqne]

theorem count_arrayUnion_twice (xs : List String) (v : String)
    (h : xs.count v ≤ 1) : (arrayUnion (arrayUnion xs v) v).count v = 1 := by
  by_cases hv : v ∈ xs
  · have h1 : 0 < xs.count v := List.count_pos_iff.mpr hv
    simp only [arrayUnion, if_pos hv]
    omega
  · have h0 : xs.count v = 0 := List.count_eq_zero.mpr hv
    have hmem : v ∈ xs ++ [v] := by simp
    simp only [arrayUnion, if_neg hv, if_pos hmem]
    simp [List.count_append, h0]

/-- C6: for a sender whose email differs from the target's and who is not
already in the target's `friends`, two successive `sendFriendRequest`
invocations (after normalization) both succeed and leave the target's
`requests` containing the sender's email exactly once: the second add of
an already-present value is a no-op, not an error. -/
theorem sendFriendRequestWith_idempotent (st : Store)
    (userEmail cleanEmail bUid : String) (bDoc : UserDoc)
    (hne : cleanEmail ≠ userEmail)
    (hfind : firstByEmail st cleanEmail = some (bUid, bDoc))
    (hnotfriend : userEmail ∉ bDoc.friends)
    (hwf : bDoc.requests.count userEmail ≤ 1) :
    ∃ st1 st2,
      sendFriendRequestWith st userEmail cleanEmail = (SendResult.sent, st1) ∧
      sendFriendRequestWith st1 userEmail cleanEmail = (SendResult.sent, st2) ∧
      ∃ q b, firstByEmail st2 cleanEmail = some (q, b) ∧
        b.requests.count userEmail = 1 := by
  have hu : ∀ d : UserDoc, ((fun d : UserDoc =>
      { d with requests := arrayUnion d.requests userEmail }) d).email = d.email :=
    fun _ => rfl
  have h1 : sendFriendRequestWith st userEmail cleanEmail = (SendResult.sent,
      updateDocById st bUid (fun d =>
        { d with requests := arrayUnion d.requests userEmail })) := by
    unfold sendFriendRequestWith
    rw [hfind]
    simp [hne, hnotfriend]
  have hq1 := firstByEmail_updateDocById st bUid (fun d =>
      { d with requests := arrayUnion d.requests userEmail }) hu cleanEmail
  rw [hfind] at hq1
  have hfind1 : firstByEmail (updateDocById st bUid (fun d =>
      { d with requests := arrayUnion d.requests userEmail })) cleanEmail
      = some (bUid, { bDoc with requests := arrayUnion bDoc.requests userEmail }) := by
    rw [hq1]; simp
  have h2 : sendFriendRequestWith (updateDocById st bUid (fun d =>
      { d with requests := arrayUnion d.requests userEmail })) userEmail cleanEmail
      = (SendResult.sent,
        updateDocById (updateDocById st bUid (fun d =>
          { d with requests := arrayUnion d.requests userEmail })) bUid
          (fun d => { d with requests := arrayUnion d.requests userEmail })) := by
    unfold sendFriendRequestWith
    rw [hfind1]
    simp [hne, hnotfriend]
  have hq2 := firstByEmail_updateDocById (updateDocById st bUid (fun d =>
      { d with requests := arrayUnion d.requests userEmail })) bUid
    (fun d => { d with requests := arrayUnion d.requests userEmail }) hu cleanEmail
  rw [hfind1] at hq2
  have hfind2 : firstByEmail (updateDocById (updateDocById st bUid (fun d =>
      { d with requests := arrayUnion d.requests userEmail })) bUid
      (fun d => { d with requests := arrayUnion d.requests userEmail })) cleanEmail
      = some (bUid, { bDoc with
          requests := arrayUnion (arrayUnion bDoc.requests userEmail) userEmail }) := by
    rw [hq2]; simp
  exact ⟨_, _, h1, h2, bUid, _, hfind2, count_arrayUnion_twice _ _ hwf⟩

theorem sendFriendRequestWith_idempotent_witness :
    ("carol@x" : String) ≠ "dave@x" ∧
    firstByEmail sampleStore "carol@x" = some ("u3", docCarol) ∧
    "dave@x" ∉ docCarol.friends ∧ docCarol.requests.count "dave@x" ≤ 1 ∧
    (∃ st1 st2,
      sendFriendRequestWith sampleStore "dave@x" "carol@x" = (SendResult.sent, st1) ∧
      sendFriendRequestWith st1 "dave@x" "carol@x" = (SendResult.sent, st2) ∧
      ∃ q b, firstByEmail st2 "carol@x" = some (q, b) ∧
        b.requests.count "dave@x" = 1) :=
  ⟨by decide, by decide, by decide, by decide,
    sendFriendRequestWith_idempotent sampleStore "dave@x" "carol@x" "u3" docCarol
      (by decide) (by decide) (by decide) (by decide)⟩

/-- Counting list entries that lie in `ys` computes the size of the set
intersection when the walked list has no duplicates. -/
theorem length_filter_mem_eq_card_inter (xs ys : List String) (h : xs.Nodup) :
    (xs.filter (fun e => e ∈ ys)).length = (xs.toFinset ∩ ys.toFinset).card := by
  have h1 : (xs.filter (fun e => decide (e ∈ ys))).Nodup := h.filter _
  rw [← List.toFinset_card_of_nodup h1, List.toFinset_filter]
  congr 1
  ext a
  simp [List.mem_toFinset, Finset.mem_filter, Finset.mem_inter]

/-- C5: every emitted suggestion is neither the caller, nor a current
friend, nor a pending requester, and its mutual count is the exact size
of the intersection of the candidate's `friends` set with the caller's
current friend-email set (the candidate's list being duplicate-free, as
the set-semantics data model guarantees). -/
theorem calculateSuggested_filters (userEmail : String)
    (friendEmails requests : List String) (docs : List UserDoc)
    (hwf : ∀ d ∈ docs, d.friends.Nodup) :
    ∀ s ∈ calculateSuggested userEmail friendEmails requests docs,
      s.email ≠ userEmail ∧ s.email ∉ friendEmails ∧ s.email ∉ requests ∧
      ∃ d ∈ docs, d.email = s.email ∧
        s.mutuals = (d.friends.toFinset ∩ friendEmails.toFinset).card := by
  intro s hs
  by_cases hfe : friendEmails.isEmpty
  · simp [calculateSuggested, hfe] at hs
  · simp only [calculateSuggested, hfe, Bool.false_eq_true, if_false] at hs
    rw [computeSuggestions, List.mem_mergeSort, List.mem_filterMap] at hs
    obtain ⟨d, hd, hsome⟩ := hs
    by_cases h1 : d.email = userEmail ∨ d.email ∈ friendEmails ∨ d.email ∈ requests
    · rw [if_pos h1] at hsome
      cases hsome
    · rw [if_neg h1] at hsome
      by_cases h2 : 0 < (candidateEntry friendEmails d).mutuals
      · rw [if_pos h2] at hsome
        injection hsome with hsd
        push_neg at h1
        obtain ⟨hne, hnf, hnr⟩ := h1
        subst hsd
        refine ⟨hne, hnf, hnr, d, hd, rfl, ?_⟩
        exact length_filter_mem_eq_card_inter d.friends friendEmails (hwf d hd)
      · rw [if_neg h2] at hsome
        cases hsome

theorem calculateSuggested_filters_witness :
    (∀ d ∈ [docAlice, docBob, docCarol, docDave], d.friends.Nodup) ∧
    (sugAlice.email ≠ "carol@x" ∧ sugAlice.email ∉ (["bob@x"] : List String) ∧
      sugAlice.email ∉ (["dave@x"] : List String) ∧
      ∃ d ∈ [docAlice, docBob, docCarol, docDave], d.email = sugAlice.email ∧
        sugAlice.mutuals =
          (d.friends.toFinset ∩ (["bob@x"] : List String).toFinset).card) :=
  ⟨by decide,
    calculateSuggested_filters "carol@x" ["bob@x"] ["dave@x"]
      [docAlice, docBob, docCarol, docDave] (by decide) sugAlice
      (by
        rw [calculateSuggested, if_neg (by decide), computeSuggestions,
          List.mem_mergeSort]
        decide)⟩
